import Mathlib

/-!
# Verification of `serial_server.py` (class `SerialServer`)

A shallow embedding of the single-threaded, selector-driven serial relay
server.  Byte strings are modelled as `List Nat`, the wall clock as `ℚ`,
and OS nondeterminism (readiness events, `recv`/`send`/`write` results,
device replies, teardown errors) as explicit oracle arguments.

The embedding follows the Python source closely:

* `bsplit` / `breplace` model `bytes.split` / `bytes.replace`;
* `SrvState` models the mutable fields of a `SerialServer` object together
  with ghost logs (bytes written to the device, bytes sent on sockets,
  sockets fully shut down and closed, queue append/pop histories);
* `acceptClient`, `clientRead`, `clientDisconnect`, `clientWrite` model the
  branches of `process_socket`; `process_serial` models `process_serial`;
* `stepEvent`/`runLoop`/`serve_forever` model the dispatch loop of
  `serve_forever`, with the selector semantics that only registered
  handles are ever reported ready;
* `openAcquireLoop`/`open_`, `close_`, `set_timeout` model `open`,
  `close` and the `timeout` property setter.
-/

namespace SerialServer

/-! ## Association lists (socket id ↦ value), used for selector
registrations and for the per-connection `ClientBuffers` objects -/

/-- Look up a key in an association list. -/
def alookup (k : Nat) : List (Nat × α) → Option α
  | [] => none
  | (k', v) :: rest => if k' = k then some v else alookup k rest

/-- Set a key in an association list (replace the first binding, or append). -/
def aset (k : Nat) (v : α) : List (Nat × α) → List (Nat × α)
  | [] => [(k, v)]
  | (k', v') :: rest => if k' = k then (k, v) :: rest else (k', v') :: aset k v rest

/-- Remove a key from an association list. -/
def aerase (k : Nat) : List (Nat × α) → List (Nat × α)
  | [] => []
  | (k', v') :: rest => if k' = k then rest else (k', v') :: aerase k rest

theorem alookup_aset_self (k : Nat) (v : α) :
    ∀ l : List (Nat × α), alookup k (aset k v l) = some v := by
  intro l
  induction l with
  | nil => simp [aset, alookup]
  | cons hd tl ih =>
    obtain ⟨k', v'⟩ := hd
    by_cases h : k' = k <;> simp [aset, alookup, h, ih]

theorem alookup_aset_ne (k j : Nat) (v : α) (hne : j ≠ k) :
    ∀ l : List (Nat × α), alookup j (aset k v l) = alookup j l := by
  intro l
  induction l with
  | nil => simp [aset, alookup, Ne.symm hne]
  | cons hd tl ih =>
    obtain ⟨k', v'⟩ := hd
    by_cases h : k' = k
    · subst h
      simp [aset, alookup, Ne.symm hne, hne]
    · simp [aset, alookup, h, ih]

/-! ## Python `bytes` operations -/

/-- Worker for `bsplit`: scan the byte string left to right, cutting at
every (non-overlapping, leftmost-first) occurrence of the separator
`s0 :: stl`.  `acc` holds the bytes of the current segment, reversed. -/
def bsplitGo (s0 : Nat) (stl : List Nat) : List Nat → List Nat → List (List Nat)
  | [], acc => [acc.reverse]
  | c :: rest, acc =>
    if (s0 :: stl).isPrefixOf (c :: rest) then
      acc.reverse :: bsplitGo s0 stl (rest.drop stl.length) []
    else
      bsplitGo s0 stl rest (c :: acc)
  termination_by l _ => l.length
  decreasing_by
  · simp only [List.length_drop, List.length_cons]; omega
  · simp [List.length_cons]

/-- Python `s.split(sep)` on bytes.  (Python raises `ValueError` on an
empty separator; the server is never run with an empty EOL marker and no
claim exercises that case, so the empty case is given the harmless value
`[s]`.) -/
def bsplit (sep s : List Nat) : List (List Nat) :=
  match sep with
  | [] => [s]
  | s0 :: stl => bsplitGo s0 stl s []

/-- Worker for `breplace`. -/
def breplaceGo (o0 : Nat) (otl : List Nat) (new : List Nat) : List Nat → List Nat
  | [] => []
  | c :: rest =>
    if (o0 :: otl).isPrefixOf (c :: rest) then
      new ++ breplaceGo o0 otl new (rest.drop otl.length)
    else
      c :: breplaceGo o0 otl new rest
  termination_by l => l.length
  decreasing_by
  · simp only [List.length_drop, List.length_cons]; omega
  · simp [List.length_cons]

/-- Python `s.replace(old, new)` on bytes: replace every non-overlapping,
leftmost-first occurrence of `old` by `new`.  (For an empty pattern Python
interleaves `new` between all characters, as modelled.) -/
def breplace (old new s : List Nat) : List Nat :=
  match old with
  | [] => new ++ s.flatMap (fun c => c :: new)
  | o0 :: otl => breplaceGo o0 otl new s

/-- Joining a list of segments with a separator (the inverse of
splitting): used to state that line splitting loses no bytes. -/
def joinSep (sep : List Nat) : List (List Nat) → List Nat
  | [] => []
  | [x] => x
  | x :: y :: t => x ++ sep ++ joinSep sep (y :: t)

theorem bsplitGo_ne_nil (s0 : Nat) (stl : List Nat) :
    ∀ l acc : List Nat, bsplitGo s0 stl l acc ≠ [] := by
  intro l acc
  induction l, acc using bsplitGo.induct s0 stl with
  | case1 acc => simp [bsplitGo]
  | case2 c rest acc hpre ih => simp [bsplitGo, hpre]
  | case3 c rest acc hpre ih => simpa [bsplitGo, hpre] using ih

theorem bsplit_ne_nil (sep s : List Nat) : bsplit sep s ≠ [] := by
  cases sep with
  | nil => simp [bsplit]
  | cons s0 stl => exact bsplitGo_ne_nil s0 stl s []

/-- Two-segment unfolding equation for `joinSep`. -/
theorem joinSep_cons_cons (sep x y : List Nat) (t : List (List Nat)) :
    joinSep sep (x :: y :: t) = x ++ sep ++ joinSep sep (y :: t) := rfl

/-- Splitting on a (nonempty) separator is lossless: re-joining the
segments with the separator recovers the original byte string. -/
theorem joinSep_bsplitGo (s0 : Nat) (stl : List Nat) :
    ∀ l acc : List Nat,
      joinSep (s0 :: stl) (bsplitGo s0 stl l acc) = acc.reverse ++ l := by
  intro l acc
  induction l, acc using bsplitGo.induct s0 stl with
  | case1 acc => simp [bsplitGo, joinSep]
  | case2 c rest acc hpre ih =>
    obtain ⟨t2, ht2⟩ := List.isPrefixOf_iff_prefix.mp hpre
    rw [List.cons_append, List.cons.injEq] at ht2
    obtain ⟨hc, hr⟩ := ht2
    subst hc
    subst hr
    have hdrop : (stl ++ t2).drop stl.length = t2 := by simp
    have hne := bsplitGo_ne_nil s0 stl ((stl ++ t2).drop stl.length) []
    obtain ⟨y, t, hyt⟩ :
        ∃ y t, bsplitGo s0 stl ((stl ++ t2).drop stl.length) [] = y :: t := by
      cases h : bsplitGo s0 stl ((stl ++ t2).drop stl.length) [] with
      | nil => exact absurd h hne
      | cons y t => exact ⟨y, t, rfl⟩
    simp only [bsplitGo]
    rw [if_pos hpre, hyt, joinSep_cons_cons, ← hyt, ih, hdrop]
    simp
  | case3 c rest acc hpre ih =>
    simp only [bsplitGo]
    rw [if_neg hpre, ih]
    simp

theorem joinSep_bsplit (s0 : Nat) (stl s : List Nat) :
    joinSep (s0 :: stl) (bsplit (s0 :: stl) s) = s := by
  simpa using joinSep_bsplitGo s0 stl s []

/-! ## The device write drain loop

`process_serial` writes the whole query in a loop: each `ser.write`
reports how many bytes it accepted and the loop retries on the rest.
The oracle `counts` gives the successive return values of `ser.write`;
exhausting it while bytes remain models the write timing out
(`serial.SerialTimeoutException`, which escapes the serving loop). -/

/-- The `while query:` drain loop of `process_serial`.  Returns the list
of chunks actually passed to (and accepted by) `ser.write`, or `none` if
the oracle is exhausted before the query drains. -/
def drainWrite : List Nat → List Nat → Option (List (List Nat))
  | [], _ => some []
  | _ :: _, [] => none
  | q@(_ :: _), c :: cs =>
    let w := min c q.length
    match drainWrite (q.drop w) cs with
    | some logs => some (q.take w :: logs)
    | none => none

/-- When the drain loop completes, the bytes handed to the device are
exactly the query — nothing lost, duplicated or reordered. -/
theorem drainWrite_flatten :
    ∀ (counts q : List Nat) (logs : List (List Nat)),
      drainWrite q counts = some logs → logs.flatten = q := by
  intro counts
  induction counts with
  | nil =>
    intro q logs h
    cases q with
    | nil => simp [drainWrite] at h; subst h; simp
    | cons a q' => simp [drainWrite] at h
  | cons c cs ih =>
    intro q logs h
    cases q with
    | nil => simp [drainWrite] at h; subst h; simp
    | cons a q' =>
      rw [drainWrite] at h
      rcases h2 : drainWrite ((a :: q').drop (min c (a :: q').length)) cs with _ | logs'
      · rw [h2] at h; simp at h
      · rw [h2] at h
        simp only [Option.some.injEq] at h
        subst h
        simp [ih _ _ h2]

/-! ## Errors, oracles and the server state -/

/-- Exceptions the modelled code can raise. -/
inductive Exc where
  /-- `Exception()` — the fresh, message-less placeholder created in `open`. -/
  | generic
  /-- `OSError` with the given errno, caught during device acquisition. -/
  | os (errno : Int)
  /-- A non-`OSError` failure during device acquisition (not caught). -/
  | fatalExc
  /-- `RuntimeError` (`close` called on a running server). -/
  | runtimeError
  /-- `ValueError` (negative timeout rejected by the setter). -/
  | valueError
  /-- `IndexError` (`list.pop(0)` on an empty queue). -/
  | indexError
  /-- `KeyError` (`sel.modify` on an unregistered handle). -/
  | keyError
  /-- The device write loop timing out (`serial.SerialTimeoutException`). -/
  | writeTimeout
deriving Repr, DecidableEq

/-- Result of one `Serial(**self.ser_kwargs)` acquisition attempt. -/
inductive AttemptRes where
  | success
  | oserr (errno : Int)
  /-- an exception that is not an `OSError` (not caught by the loop) -/
  | fatal
deriving Repr, DecidableEq

/-- `errno.EBUSY` on Linux. -/
def EBUSY : Int := 16

/-- Outcome of the device acquisition loop in `open`. -/
inductive OpenOutcome where
  /-- the loop `break`s with an open handle after this many attempts -/
  | opened (attempts : Nat)
  /-- an exception is raised after this many attempts -/
  | raised (e : Exc) (attempts : Nat)
  /-- the modelled execution window ended before the loop did -/
  | outOfFuel
deriving Repr, DecidableEq

/-- A `ClientBuffers` object: the per-connection inbound/outbound byte
buffers (`in_buf`, `out_buf`).  The socket handle it carries is the key
under which the object is stored. -/
structure Buf where
  in_buf : List Nat
  out_buf : List Nat
deriving Repr, DecidableEq

/-- The mutable fields of a `SerialServer` object, together with ghost
logs recording externally observable effects.

Client sockets are identified by `Nat` ids.  `ClientBuffers` objects live
in `bufs`; an entry stays there even after its socket is unregistered and
closed, because queued `(command, ClientBuffers)` pairs keep referencing
the object — exactly as Python object references behave. -/
structure SrvState where
  /-- `self._open` -/
  isOpen : Bool
  /-- `self._serving` -/
  serving : Bool
  /-- `self._shutdown_request` -/
  shutdownReq : Bool
  /-- `self._timeout` (behind the `timeout` property) -/
  timeoutV : ℚ
  /-- `self.ser_kwargs['timeout']` (fixed when the object is built) -/
  kwargsTimeout : ℚ
  /-- `self.eol_ser` -/
  eol_ser : List Nat
  /-- `self.eol_sock` -/
  eol_sock : List Nat
  /-- whether `self.serial` holds an open device handle -/
  serialPresent : Bool
  /-- the device handle's `timeout` attribute, when a handle exists -/
  serialTimeout : Option ℚ
  /-- the device handle's `write_timeout` attribute, when a handle exists -/
  serialWTimeout : Option ℚ
  /-- whether `self.sock` holds the listening socket -/
  sockPresent : Bool
  /-- whether the listening socket is registered (for `EVENT_READ`) -/
  listenReg : Bool
  /-- whether the device handle is registered (for `EVENT_WRITE`) -/
  serialReg : Bool
  /-- client socket registrations: `true` ↦ `EVENT_READ | EVENT_WRITE`,
      `false` ↦ `EVENT_READ` -/
  clientSel : List (Nat × Bool)
  /-- `self.clients`, the active client set -/
  clients : List Nat
  /-- the live `ClientBuffers` objects, keyed by socket id -/
  bufs : List (Nat × Buf)
  /-- `self.ser_queue`: pairs of (command bytes, owning socket id) -/
  ser_queue : List (List Nat × Nat)
  /-- ghost: all bytes written to the device, in order -/
  deviceLog : List Nat
  /-- ghost: all bytes sent on client sockets, in order -/
  sendLog : List (Nat × List Nat)
  /-- ghost: sockets that were shut down and then closed, in order -/
  closedLog : List Nat
  /-- ghost: every pair ever appended to `ser_queue`, in append order -/
  enqHist : List (List Nat × Nat)
  /-- ghost: every pair popped by `process_serial`, in pop order -/
  txHist : List (List Nat × Nat)
deriving Repr, DecidableEq

/-! ## `process_socket` (the three client-side branches) -/

/-- Listening socket, read-ready (`process_socket`, `data is None` branch):
accept the connection, add it to the active set and register it for
reading with a fresh `ClientBuffers`. -/
def acceptClient (st : SrvState) (nid : Nat) : SrvState :=
  { st with clients := st.clients ++ [nid],
            clientSel := aset nid false st.clientSel,
            bufs := aset nid ⟨[], []⟩ st.bufs }

/-- Client socket, read-ready with data (`process_socket`,
`mask & EVENT_READ`, non-empty `recv`): append to `in_buf`, split on
`eol_sock`, retain the trailing remainder, and queue every complete
command; when the queue was empty, first register the device for
writing. -/
def clientRead (st : SrvState) (sid : Nat) (received : List Nat) : SrvState :=
  let b := (alookup sid st.bufs).getD ⟨[], []⟩
  let chunks := bsplit st.eol_sock (b.in_buf ++ received)
  let inb := chunks.getLast?.getD []
  let cmds := chunks.dropLast
  let st := { st with bufs := aset sid ⟨inb, b.out_buf⟩ st.bufs }
  if cmds = [] then st
  else
    let st := if st.ser_queue = [] then { st with serialReg := true } else st
    { st with ser_queue := st.ser_queue ++ cmds.map (fun c => (c, sid)),
              enqHist := st.enqHist ++ cmds.map (fun c => (c, sid)) }

/-- Client socket, read-ready with an empty `recv` (`process_socket`):
the peer closed; unregister, drop from the active set, shut the socket
down and close it. -/
def clientDisconnect (st : SrvState) (sid : Nat) : SrvState :=
  { st with clientSel := aerase sid st.clientSel,
            clients := st.clients.erase sid,
            closedLog := st.closedLog ++ [sid] }

/-- Client socket, write-ready (`process_socket`, `mask & EVENT_WRITE`):
send as much of `out_buf` as the transport accepts (`cnt` is the count
`sock.send` reports), keep the rest; when the buffer drains, downgrade
the registration to read-only. -/
def clientWrite (st : SrvState) (sid : Nat) (cnt : Nat) : SrvState :=
  let b := (alookup sid st.bufs).getD ⟨[], []⟩
  let sent := min cnt b.out_buf.length
  let rest := b.out_buf.drop sent
  let st := { st with sendLog := st.sendLog ++ [(sid, b.out_buf.take sent)],
                      bufs := aset sid ⟨b.in_buf, rest⟩ st.bufs }
  if rest = [] then { st with clientSel := aset sid false st.clientSel } else st

/-! ## `process_serial` -/

/-- Device write-ready (`process_serial`): pop the oldest queue entry,
unregister the device if the queue drained, write `cmd + eol_ser` in
full (looping over partial writes), read the reply, translate `eol_ser`
to `eol_sock`, and — when the owning socket still has an empty `out_buf`
and is still in the active set — re-arm it for writing; finally extend
the owning `ClientBuffers.out_buf` with the translated reply.

`counts` are the successive `ser.write` return values; `raw` is what
`ser.read_until(self.eol_ser)` returns. -/
def process_serial (st : SrvState) (counts : List Nat) (raw : List Nat) :
    SrvState × Option Exc :=
  match st.ser_queue with
  | [] => (st, some .indexError)
  | (cmd, sid) :: rest =>
    let st := { st with ser_queue := rest,
                        serialReg := if rest = [] then false else st.serialReg,
                        txHist := st.txHist ++ [(cmd, sid)] }
    match drainWrite (cmd ++ st.eol_ser) counts with
    | none => (st, some .writeTimeout)
    | some logs =>
      let st := { st with deviceLog := st.deviceLog ++ logs.flatten }
      let reply := breplace st.eol_ser st.eol_sock raw
      let b := (alookup sid st.bufs).getD ⟨[], []⟩
      if b.out_buf = [] ∧ sid ∈ st.clients then
        match alookup sid st.clientSel with
        | none => (st, some .keyError)
        | some _ =>
          let st := { st with clientSel := aset sid true st.clientSel }
          ({ st with bufs := aset sid ⟨b.in_buf, b.out_buf ++ reply⟩ st.bufs }, none)
      else
        ({ st with bufs := aset sid ⟨b.in_buf, b.out_buf ++ reply⟩ st.bufs }, none)

/-! ## The serving loop -/

/-- One readiness event as reported by `sel.select`, together with the
oracle data the corresponding handler consumes. -/
inductive Ev where
  /-- the listening socket is read-ready; accepting yields socket `nid` -/
  | acceptEv (nid : Nat)
  /-- client `sid` is read-ready; `received` is what `recv` returns
      (`[]` models EOF: the peer closed) -/
  | readEv (sid : Nat) (received : List Nat)
  /-- client `sid` is write-ready; `cnt` bounds what `send` accepts -/
  | writeEv (sid : Nat) (cnt : Nat)
  /-- the device is write-ready; see `process_serial` for the oracles -/
  | serialEv (counts : List Nat) (raw : List Nat)
  /-- `stop()` is invoked externally (e.g. from the signal handler) -/
  | stopEv
deriving Repr, DecidableEq

/-- Dispatch one event, as `serve_forever` does.  The selector reports
only registered handles with matching interest, so events for
unregistered handles (or a write event for a read-only registration)
cannot be delivered and leave the state unchanged.  An accepted socket
is a fresh object, so its id collides with no live `ClientBuffers`. -/
def stepEvent (st : SrvState) : Ev → SrvState × Option Exc
  | .acceptEv nid =>
    if st.listenReg ∧ alookup nid st.bufs = none then (acceptClient st nid, none)
    else (st, none)
  | .readEv sid received =>
    if (alookup sid st.clientSel).isSome then
      if received = [] then (clientDisconnect st sid, none)
      else (clientRead st sid received, none)
    else (st, none)
  | .writeEv sid cnt =>
    if alookup sid st.clientSel = some true then (clientWrite st sid cnt, none)
    else (st, none)
  | .serialEv counts raw =>
    if st.serialReg then process_serial st counts raw else (st, none)
  | .stopEv => (if st.serving then { st with shutdownReq := true } else st, none)

/-- The `while not self._shutdown_request` dispatch loop of
`serve_forever`, run over a finite window of events.  The shutdown flag
is checked before each event (the loop checks it per batch and again per
event); an exception from a handler escapes the loop. -/
def runLoop : SrvState → List Ev → SrvState × Option Exc
  | st, [] => (st, none)
  | st, ev :: rest =>
    if st.shutdownReq then (st, none)
    else
      match stepEvent st ev with
      | (st', none) => runLoop st' rest
      | (st', some e) => (st', some e)

/-! ## `serve_forever`'s `finally` block -/

/-- What the teardown of one client in the `finally` block does:
succeed, raise `OSError` in `client.shutdown(SHUT_RDWR)`, or raise
`OSError` in `client.close()`. -/
inductive TearRes where
  | ok
  | failShutdown
  | failClose
deriving Repr, DecidableEq

/-- The `for client in self.clients: client.shutdown(...); client.close()`
loop inside `with suppress(OSError)`.  Returns the ids that were fully
shut down *and* closed.  The first `OSError` makes `suppress` abandon the
whole `with` block, so the remaining clients are skipped. -/
def closeAll (tear : Nat → TearRes) : List Nat → List Nat
  | [] => []
  | c :: rest =>
    match tear c with
    | .ok => c :: closeAll tear rest
    | .failShutdown => []
    | .failClose => []

/-- The `finally` block of `serve_forever`: best-effort teardown of the
remaining clients, then (unconditionally) clear the active set and the
Serving flag. -/
def serve_finally (st : SrvState) (tear : Nat → TearRes) : SrvState :=
  { st with closedLog := st.closedLog ++ closeAll tear st.clients,
            clients := [], serving := false }

/-- `serve_forever` on an already-open server (when the server is not
open, `open()` runs first; the claims below all start from an open
server, where that call is a no-op): set Serving, run the dispatch loop,
and run the `finally` block however the loop ended. -/
def serve_forever (st : SrvState) (evs : List Ev) (tear : Nat → TearRes) :
    SrvState × Option Exc :=
  let p := runLoop { st with serving := true } evs
  (serve_finally p.1 tear, p.2)

/-! ## Lifecycle: `open`, `close`, the `timeout` property -/

/-- The grace-window acquisition loop of `open`:

`while time() < time_i + self.timeout:` try `Serial(**self.ser_kwargs)`;
`break` on success; on `OSError` remember it and, when its errno is
`EBUSY`, `sleep(0.1)`; when the window closes without an open handle,
`raise exc`.

`att i` is the result of the `i`-th constructor call, `dur i` how much
wall time it consumes, `elapsed` the time already spent, `exc` the last
remembered exception (initially the fresh `Exception()`), and `fuel`
bounds the modelled execution window. -/
def openAcquireLoop (att : Nat → AttemptRes) (dur : Nat → ℚ) (timeout : ℚ) :
    Nat → ℚ → Nat → Exc → OpenOutcome
  | fuel, elapsed, i, exc =>
    if elapsed < timeout then
      match fuel with
      | 0 => .outOfFuel
      | fuel + 1 =>
        match att i with
        | .success => .opened (i + 1)
        | .fatal => .raised .fatalExc (i + 1)
        | .oserr n =>
          openAcquireLoop att dur timeout fuel
            (elapsed + dur i + (if n = EBUSY then (1 : ℚ)/10 else 0)) (i + 1) (.os n)
    else
      .raised exc i

/-- The state reset `open` performs before acquiring the device: a fresh
selector (dropping every registration), the stale device handle closed
and dropped, and the command queue cleared. -/
def resetForOpen (st : SrvState) : SrvState :=
  { st with listenReg := false, serialReg := false, clientSel := [],
            serialPresent := false, serialTimeout := none, serialWTimeout := none,
            ser_queue := [] }

/-- `open()`: a no-op when already open; otherwise reset stale state, run
the acquisition loop, and on success create the (non-blocking) listening
socket, register it for reading and set the Open flag.  The new device
handle's read timeout comes from `ser_kwargs` (its `write_timeout` is not
passed, so it keeps pySerial's default).  Returns `none` when the
modelled window ends inside the loop. -/
def open_ (st : SrvState) (att : Nat → AttemptRes) (dur : Nat → ℚ) (fuel : Nat) :
    Option (SrvState × Option Exc) :=
  if st.isOpen then some (st, none)
  else
    let st1 := resetForOpen st
    match openAcquireLoop att dur st.timeoutV fuel 0 0 .generic with
    | .opened _ =>
      some ({ st1 with serialPresent := true,
                       serialTimeout := some st.kwargsTimeout,
                       sockPresent := true, listenReg := true,
                       isOpen := true }, none)
    | .raised e _ => some (st1, some e)
    | .outOfFuel => none

/-- `close()`: raise `RuntimeError` while Serving; when Open, tear
everything down (errors are suppressed; the teardown operations are
modelled as succeeding, which no claim depends on) and clear the Open
flag; a no-op when already closed. -/
def close_ (st : SrvState) : SrvState × Option Exc :=
  if st.serving then (st, some .runtimeError)
  else if st.isOpen then
    ({ st with listenReg := false, serialReg := false, clientSel := [],
               serialPresent := false, serialTimeout := none,
               serialWTimeout := none, ser_queue := [],
               sockPresent := false, clients := [], isOpen := false }, none)
  else (st, none)

/-- `stop()`: set the shutdown flag, but only while Serving. -/
def stop (st : SrvState) : SrvState :=
  if st.serving then { st with shutdownReq := true } else st

/-- The `timeout` property setter: reject negative values with
`ValueError`; otherwise push the value onto the device handle's
`timeout` and `write_timeout` when a handle exists, and store it.
(The setter looks at no state flag.) -/
def set_timeout (st : SrvState) (val : ℚ) : SrvState × Option Exc :=
  if val < 0 then (st, some .valueError)
  else
    let st := if st.serialPresent
      then { st with serialTimeout := some val, serialWTimeout := some val }
      else st
    ({ st with timeoutV := val }, none)

/-! ## Distinguished states -/

/-- A `SerialServer` object as `__init__` leaves it (with the default
`ser_kwargs`, whose timeout is `1.0`). -/
def initState (eolSer eolSock : List Nat) : SrvState :=
  { isOpen := false, serving := false, shutdownReq := false,
    timeoutV := 1, kwargsTimeout := 1,
    eol_ser := eolSer, eol_sock := eolSock,
    serialPresent := false, serialTimeout := none, serialWTimeout := none,
    sockPresent := false, listenReg := false, serialReg := false,
    clientSel := [], clients := [], bufs := [], ser_queue := [],
    deviceLog := [], sendLog := [], closedLog := [],
    enqHist := [], txHist := [] }

/-- A freshly opened server: the state `open()` produces from
`initState` when the first acquisition attempt succeeds. -/
def freshOpen (eolSer eolSock : List Nat) : SrvState :=
  { initState eolSer eolSock with
    isOpen := true, serialPresent := true, serialTimeout := some 1,
    sockPresent := true, listenReg := true }

/-- Sanity link between `open_` and `freshOpen`: opening a just-built
server whose first acquisition attempt succeeds yields exactly
`freshOpen`. -/
theorem open_initState (eolSer eolSock : List Nat)
    (att : Nat → AttemptRes) (dur : Nat → ℚ) (fuel : Nat)
    (hsucc : att 0 = .success) :
    open_ (initState eolSer eolSock) att dur (fuel + 1)
      = some (freshOpen eolSer eolSock, none) := by
  rw [open_]
  simp only [initState, freshOpen, resetForOpen]
  rw [openAcquireLoop]
  norm_num [hsucc]

/-! ## Invariants of the serving loop -/

/-- The queue-bookkeeping invariant: what has been popped so far,
followed by what is still queued, is exactly what has ever been
appended, in order. -/
def queueInv (st : SrvState) : Prop :=
  st.txHist ++ st.ser_queue = st.enqHist

/-- The registration invariant: the device handle is registered for
write-readiness exactly when the queue is non-empty. -/
def regInv (st : SrvState) : Prop :=
  st.serialReg = true ↔ st.ser_queue ≠ []

theorem map_dropLast_ne_nil (f : α → β) (l : List α) (h : l.dropLast ≠ []) :
    (l.map f).dropLast ≠ [] := by
  intro hc
  apply h
  have h1 := congrArg List.length hc
  simp [List.length_dropLast] at h1
  apply List.eq_nil_of_length_eq_zero
  simp [List.length_dropLast, h1]

theorem stepEvent_queueInv (st : SrvState) (ev : Ev) (h : queueInv st) :
    queueInv (stepEvent st ev).1 := by
  unfold queueInv at h ⊢
  cases ev with
  | acceptEv nid =>
    simp only [stepEvent]
    split <;> simp [acceptClient, h]
  | readEv sid r =>
    simp only [stepEvent]
    split
    · split
      · simp [clientDisconnect, h]
      · simp only [clientRead]
        split
        · simpa using h
        · split <;> simp [← h]
    · simpa using h
  | writeEv sid cnt =>
    simp only [stepEvent]
    split
    · simp only [clientWrite]
      split <;> simp [h]
    · simpa using h
  | serialEv counts raw =>
    simp only [stepEvent]
    split
    · simp only [process_serial]
      split
      · simpa using h
      · rename_i cmd sid rest hq
        rw [hq] at h
        split
        · simpa [List.append_assoc] using h
        · split
          · split
            · simpa [List.append_assoc] using h
            · simpa [List.append_assoc] using h
          · simpa [List.append_assoc] using h
    · simpa using h
  | stopEv =>
    simp only [stepEvent]
    split <;> simpa using h

theorem stepEvent_regInv (st : SrvState) (ev : Ev) (h : regInv st) :
    regInv (stepEvent st ev).1 := by
  unfold regInv at h ⊢
  cases ev with
  | acceptEv nid =>
    simp only [stepEvent]
    split <;> simp [acceptClient, h]
  | readEv sid r =>
    simp only [stepEvent]
    split
    · split
      · simp [clientDisconnect, h]
      · simp only [clientRead]
        split
        · simpa using h
        · rename_i hcmds
          split
          · rename_i hq0
            simp [hq0]
            exact map_dropLast_ne_nil _ _ hcmds
          · rename_i hq0
            have hsr : st.serialReg = true := h.mpr hq0
            simp [hsr, List.append_eq_nil, hq0]
    · simpa using h
  | writeEv sid cnt =>
    simp only [stepEvent]
    split
    · simp only [clientWrite]
      split <;> simp [h]
    · simpa using h
  | serialEv counts raw =>
    simp only [stepEvent]
    split
    · rename_i hreg
      simp only [process_serial]
      split
      · simpa using h
      · rename_i cmd sid rest hq
        split
        · by_cases hr : rest = [] <;> simp [hr, hreg]
        · split
          · split
            · by_cases hr : rest = [] <;> simp [hr, hreg]
            · by_cases hr : rest = [] <;> simp [hr, hreg]
          · by_cases hr : rest = [] <;> simp [hr, hreg]
    · simpa using h
  | stopEv =>
    simp only [stepEvent]
    split <;> simpa using h

theorem runLoop_queueInv :
    ∀ (evs : List Ev) (st : SrvState), queueInv st → queueInv (runLoop st evs).1 := by
  intro evs
  induction evs with
  | nil => intro st h; simpa [runLoop] using h
  | cons ev rest ih =>
    intro st h
    rw [runLoop]
    split
    · simpa using h
    · have hstep := stepEvent_queueInv st ev h
      rcases hev : stepEvent st ev with ⟨st', e⟩
      rw [hev] at hstep
      cases e with
      | none => simpa using ih st' hstep
      | some exc => simpa using hstep

theorem runLoop_regInv :
    ∀ (evs : List Ev) (st : SrvState), regInv st → regInv (runLoop st evs).1 := by
  intro evs
  induction evs with
  | nil => intro st h; simpa [runLoop] using h
  | cons ev rest ih =>
    intro st h
    rw [runLoop]
    split
    · simpa using h
    · have hstep := stepEvent_regInv st ev h
      rcases hev : stepEvent st ev with ⟨st', e⟩
      rw [hev] at hstep
      cases e with
      | none => simpa using ih st' hstep
      | some exc => simpa using hstep

/-! ## Claims -/

/-- **C1.** Commands are serviced in global FIFO order: over any sequence
of readiness events handled by the serving loop of a freshly opened
server, the device transactions performed by `process_serial` (recorded
in `txHist`, in transaction order) are exactly an initial segment of the
pairs appended to `ser_queue` by `process_socket` (recorded in `enqHist`,
in append order) — the part not yet performed being precisely what is
still queued — regardless of which client submitted each command. -/
theorem C1_fifo_order (eolSer eolSock : List Nat) (evs : List Ev) :
    (runLoop (freshOpen eolSer eolSock) evs).1.txHist
        ++ (runLoop (freshOpen eolSer eolSock) evs).1.ser_queue
      = (runLoop (freshOpen eolSer eolSock) evs).1.enqHist
    ∧ ∃ pending,
        (runLoop (freshOpen eolSer eolSock) evs).1.txHist ++ pending
          = (runLoop (freshOpen eolSer eolSock) evs).1.enqHist := by
  have h := runLoop_queueInv evs (freshOpen eolSer eolSock) rfl
  exact ⟨h, _, h⟩

/-- **C2.** In every state reachable from a freshly opened server by
handler steps (observed between event-handler invocations), the serial
device handle is registered for write-readiness iff `ser_queue` is
non-empty. -/
theorem C2_serial_reg_iff_queue (eolSer eolSock : List Nat) (evs : List Ev) :
    (runLoop (freshOpen eolSer eolSock) evs).1.serialReg = true
      ↔ (runLoop (freshOpen eolSer eolSock) evs).1.ser_queue ≠ [] :=
  runLoop_regInv evs (freshOpen eolSer eolSock) (by simp [regInv, freshOpen, initState])

/-- **C6.** If a client's socket has been removed from the active set
(disconnect) after its command was enqueued but before the device reply
is produced, `process_serial` discards that reply: it raises no error,
changes no selector registration of any socket, and performs no socket
send. -/
theorem C6_disconnect_inflight (st : SrvState) (counts raw cmd : List Nat)
    (sid : Nat) (rest : List (List Nat × Nat)) (logs : List (List Nat))
    (hq : st.ser_queue = (cmd, sid) :: rest)
    (hnc : sid ∉ st.clients)
    (hdw : drainWrite (cmd ++ st.eol_ser) counts = some logs) :
    (process_serial st counts raw).2 = none
    ∧ (process_serial st counts raw).1.clientSel = st.clientSel
    ∧ (process_serial st counts raw).1.clients = st.clients
    ∧ (process_serial st counts raw).1.sendLog = st.sendLog := by
  have hguard :
      ¬(((alookup sid st.bufs).getD ⟨[], []⟩).out_buf = [] ∧ sid ∈ st.clients) := by
    intro hcon
    exact hnc hcon.2
  simp [process_serial, hq, hdw, hguard]

/-- Witness for C6 at a concrete disconnected-client state. -/
theorem C6_disconnect_inflight_witness :
    (process_serial { freshOpen [10] [10] with
        ser_queue := [([67], 1)], enqHist := [([67], 1)],
        serialReg := true } [2] []).2 = none
    ∧ (process_serial { freshOpen [10] [10] with
        ser_queue := [([67], 1)], enqHist := [([67], 1)],
        serialReg := true } [2] []).1.clientSel
      = ({ freshOpen [10] [10] with
        ser_queue := [([67], 1)], enqHist := [([67], 1)],
        serialReg := true } : SrvState).clientSel
    ∧ (process_serial { freshOpen [10] [10] with
        ser_queue := [([67], 1)], enqHist := [([67], 1)],
        serialReg := true } [2] []).1.clients
      = ({ freshOpen [10] [10] with
        ser_queue := [([67], 1)], enqHist := [([67], 1)],
        serialReg := true } : SrvState).clients
    ∧ (process_serial { freshOpen [10] [10] with
        ser_queue := [([67], 1)], enqHist := [([67], 1)],
        serialReg := true } [2] []).1.sendLog
      = ({ freshOpen [10] [10] with
        ser_queue := [([67], 1)], enqHist := [([67], 1)],
        serialReg := true } : SrvState).sendLog :=
  C6_disconnect_inflight _ [2] [] [67] 1 [] [[67, 10]] rfl (by decide) (by decide)

/-- **C7.** Calling `close()` while the server is Serving fails fast with
a `RuntimeError` and mutates nothing: the returned state is exactly the
state before the call (flags, selector, serial handle, queue, listening
socket and active client set included). -/
theorem C7_close_while_serving (st : SrvState) (h : st.serving = true) :
    close_ st = (st, some .runtimeError) := by
  simp [close_, h]

/-- Witness for C7 on a concrete serving server. -/
theorem C7_close_while_serving_witness :
    close_ { freshOpen [10] [10] with serving := true }
      = ({ freshOpen [10] [10] with serving := true }, some .runtimeError) :=
  C7_close_while_serving _ rfl

/-- The concrete event trace of claim C3: one connection, chunk `"AB"`
then chunk `"CD\n"`, socket EOL `"\n"`. -/
def c3Trace : SrvState × Option Exc :=
  runLoop (freshOpen [10] [10])
    [.acceptEv 1, .readEv 1 [65, 66], .readEv 1 [67, 68, 10]]

/-- **C3.** Inbound bytes are reassembled into lines.  First conjunct:
splitting an inbound buffer on the (nonempty) socket EOL marker loses no
bytes — the queued segments plus the retained remainder rejoin to the
received byte string, so every complete segment becomes one queued
command and the final remainder stays as the new inbound buffer.  Rest:
on one connection of a freshly opened server (socket EOL `"\n"`),
delivering `"AB"` then `"CD\n"` raises nothing and yields exactly the
single queued command `"ABCD"` (both in the queue and in the append
history) and an empty inbound buffer. -/
theorem C3_line_reassembly :
    (∀ (s0 : Nat) (stl s : List Nat),
        joinSep (s0 :: stl) (bsplit (s0 :: stl) s) = s)
    ∧ c3Trace.2 = none
    ∧ alookup 1 c3Trace.1.bufs = some ⟨[], []⟩
    ∧ c3Trace.1.enqHist = [([65, 66, 67, 68], 1)]
    ∧ c3Trace.1.ser_queue = [([65, 66, 67, 68], 1)] := by
  refine ⟨joinSep_bsplit, ?_⟩
  simp [c3Trace, runLoop, stepEvent, acceptClient, clientRead, freshOpen,
        initState, alookup, aset, bsplit, bsplitGo, List.isPrefixOf]

/-- The concrete event trace of claim C4, parametrized by the device's
partial-write schedule: device EOL `"\r"`, socket EOL `"\n"`, one
connection sending `"PING\n"`, the device replying `"PONG\r"`. -/
def c4Trace (counts : List Nat) : SrvState × Option Exc :=
  runLoop (freshOpen [13] [10])
    [.acceptEv 1, .readEv 1 [80, 73, 78, 71, 10],
     .serialEv counts [80, 79, 78, 71, 13]]

/-- **C4.** EOL translation round-trips across the relay: with device
EOL `"\r"` and socket EOL `"\n"`, the client command `"PING\n"` causes
the bytes written to the device to be exactly `"PING\r"` — for every
partial-write schedule under which the write loop completes — and the
device reply `"PONG\r"` causes the bytes appended to the client's
outbound buffer to be exactly `"PONG\n"` (the device marker replaced by
the socket marker on the reply path only). -/
theorem C4_eol_round_trip (counts : List Nat) (logs : List (List Nat))
    (h : drainWrite [80, 73, 78, 71, 13] counts = some logs) :
    (c4Trace counts).2 = none
    ∧ (c4Trace counts).1.deviceLog = [80, 73, 78, 71, 13]
    ∧ alookup 1 (c4Trace counts).1.bufs = some ⟨[], [80, 79, 78, 71, 10]⟩ := by
  have hfl := drainWrite_flatten counts _ logs h
  simp [c4Trace, runLoop, stepEvent, acceptClient, clientRead, process_serial,
        freshOpen, initState, alookup, aset, bsplit, bsplitGo, breplace,
        breplaceGo, List.isPrefixOf, h, hfl]

/-- Witness for C4 under the schedule that accepts 5 bytes at once. -/
theorem C4_eol_round_trip_witness :
    (c4Trace [5]).2 = none
    ∧ (c4Trace [5]).1.deviceLog = [80, 73, 78, 71, 13]
    ∧ alookup 1 (c4Trace [5]).1.bufs = some ⟨[], [80, 79, 78, 71, 10]⟩ :=
  C4_eol_round_trip [5] [[80, 73, 78, 71, 13]] (by decide)

/-- Window exhausted: the acquisition loop raises the remembered error,
whatever fuel remains. -/
theorem openAcquireLoop_stop (att : Nat → AttemptRes) (dur : Nat → ℚ)
    (timeout elapsed : ℚ) (fuel i : Nat) (exc : Exc)
    (h : ¬ elapsed < timeout) :
    openAcquireLoop att dur timeout fuel elapsed i exc = .raised exc i := by
  rw [openAcquireLoop.eq_def]
  simp only [h, if_false]

/-- One retried `OSError` iteration of the acquisition loop: inside the
window, a failure with errno `n` — busy or not — is remembered and the
loop tries again, after a 0.1 sleep exactly when `n = EBUSY`. -/
theorem openAcquireLoop_oserr_step (att : Nat → AttemptRes) (dur : Nat → ℚ)
    (timeout elapsed : ℚ) (fuel i : Nat) (exc : Exc) (n : Int)
    (h1 : elapsed < timeout) (h2 : att i = .oserr n) :
    openAcquireLoop att dur timeout (fuel + 1) elapsed i exc
      = openAcquireLoop att dur timeout fuel
          (elapsed + dur i + (if n = EBUSY then (1 : ℚ)/10 else 0))
          (i + 1) (.os n) := by
  rw [openAcquireLoop.eq_def]
  simp only [h1, if_true, h2]

/-- If every acquisition attempt fails with an `OSError` — busy or not —
the loop keeps retrying inside the grace window and, given enough fuel to
outlast the window (each attempt costs at least `δ > 0` time), ends by
raising the last remembered error: the initial placeholder when no
attempt fit the window, else the error of the final attempt. -/
theorem openAcquireLoop_allfail
    (att : Nat → AttemptRes) (dur : Nat → ℚ) (errs : Nat → Int)
    (timeout δ : ℚ)
    (hatt : ∀ j, att j = .oserr (errs j))
    (hδ : ∀ j, δ ≤ dur j) (_hδ0 : 0 < δ) :
    ∀ (fuel : Nat) (elapsed : ℚ) (i : Nat) (exc : Exc),
      timeout - elapsed ≤ δ * fuel →
      openAcquireLoop att dur timeout fuel elapsed i exc = .raised exc i
      ∨ ∃ k, i < k ∧ openAcquireLoop att dur timeout fuel elapsed i exc
          = .raised (.os (errs (k - 1))) k := by
  intro fuel
  induction fuel with
  | zero =>
    intro elapsed i exc hb
    left
    have hge : ¬ elapsed < timeout := by
      push_cast at hb
      linarith
    exact openAcquireLoop_stop att dur timeout elapsed 0 i exc hge
  | succ fuel ih =>
    intro elapsed i exc hb
    by_cases hlt : elapsed < timeout
    · have hb' : timeout
          - (elapsed + dur i + (if errs i = EBUSY then (1 : ℚ)/10 else 0))
          ≤ δ * fuel := by
        have h1 : δ ≤ dur i := hδ i
        have h2 : (0 : ℚ) ≤ (if errs i = EBUSY then (1 : ℚ)/10 else 0) := by
          split <;> norm_num
        push_cast at hb
        linarith
      rw [openAcquireLoop_oserr_step att dur timeout elapsed fuel i exc
        (errs i) hlt (hatt i)]
      rcases ih _ (i + 1) (.os (errs i)) hb' with hL | ⟨k, hk, hkEq⟩
      · right
        exact ⟨i + 1, Nat.lt_succ_self i, by simpa using hL⟩
      · right
        exact ⟨k, Nat.lt_of_succ_lt hk, hkEq⟩
    · left
      exact openAcquireLoop_stop att dur timeout elapsed (fuel + 1) i exc hlt

/-- Counterexample to **C5** as stated: with timeout `1`, the first
acquisition attempt failing with the non-busy `OSError` errno `2`
(`ENOENT ≠ EBUSY`) and the second attempt succeeding, `open`'s loop does
NOT abort after the non-busy failure — it makes a second attempt, the
open succeeds (`opened` after 2 attempts), and no error is surfaced. -/
theorem C5_counterexample :
    openAcquireLoop (fun i => if i = 0 then .oserr 2 else .success)
        (fun _ => (1 : ℚ)/10) 1 5 0 0 .generic = .opened 2
    ∧ openAcquireLoop (fun i => if i = 0 then .oserr 2 else .success)
        (fun _ => (1 : ℚ)/10) 1 5 0 0 .generic ≠ .raised (.os 2) 1 := by
  have h : openAcquireLoop (fun i => if i = 0 then .oserr 2 else .success)
      (fun _ => (1 : ℚ)/10) 1 5 0 0 .generic = .opened 2 := by
    norm_num [openAcquireLoop.eq_def, EBUSY]
  refine ⟨h, ?_⟩
  rw [h]
  exact fun hc => OpenOutcome.noConfusion hc

/-- **C5 (amended).** During `open()`'s device-acquisition loop, *every*
`OSError` — busy or not — is retried while the grace window has not
elapsed; an `EBUSY` failure additionally sleeps 0.1 before the next
attempt, any other `OSError` is retried immediately with no sleep.  The
loop stops attempting only when the window is exhausted, at which point
the last remembered error is surfaced (the fresh placeholder exception
when no attempt was made at all). -/
theorem C5_open_retry_amended :
    (∀ (att : Nat → AttemptRes) (dur : Nat → ℚ) (timeout elapsed : ℚ)
        (fuel i : Nat) (exc : Exc) (n : Int),
        elapsed < timeout → att i = .oserr n →
        openAcquireLoop att dur timeout (fuel + 1) elapsed i exc
          = openAcquireLoop att dur timeout fuel
              (elapsed + dur i + (if n = EBUSY then (1 : ℚ)/10 else 0))
              (i + 1) (.os n))
    ∧ (∀ (att : Nat → AttemptRes) (dur : Nat → ℚ) (timeout elapsed : ℚ)
        (fuel i : Nat) (exc : Exc),
        ¬ elapsed < timeout →
        openAcquireLoop att dur timeout fuel elapsed i exc = .raised exc i)
    ∧ (∀ (att : Nat → AttemptRes) (dur : Nat → ℚ) (errs : Nat → Int)
        (timeout δ : ℚ) (fuel : Nat),
        (∀ j, att j = .oserr (errs j)) →
        (∀ j, δ ≤ dur j) → 0 < δ → timeout ≤ δ * fuel →
        openAcquireLoop att dur timeout fuel 0 0 .generic
            = .raised .generic 0
        ∨ ∃ k, 0 < k ∧ openAcquireLoop att dur timeout fuel 0 0 .generic
            = .raised (.os (errs (k - 1))) k) := by
  refine ⟨?_, ?_, ?_⟩
  · intro att dur timeout elapsed fuel i exc n h1 h2
    exact openAcquireLoop_oserr_step att dur timeout elapsed fuel i exc n h1 h2
  · intro att dur timeout elapsed fuel i exc h1
    exact openAcquireLoop_stop att dur timeout elapsed fuel i exc h1
  · intro att dur errs timeout δ fuel hatt hδ hδ0 hb
    have h := openAcquireLoop_allfail att dur errs timeout δ hatt hδ hδ0
      fuel 0 0 .generic (by simpa using hb)
    rcases h with hL | ⟨k, hk, hkEq⟩
    · exact Or.inl hL
    · exact Or.inr ⟨k, hk, hkEq⟩

/-- Witness for the amended C5, instantiating each part at concrete
inputs: one retried non-busy `OSError` step, one window-exhaustion step,
and one all-failures run. -/
theorem C5_open_retry_amended_witness :
    ((0 : ℚ) < 1)
    ∧ openAcquireLoop (fun _ => .oserr 2) (fun _ => 1) 1 1 0 0 .generic
        = openAcquireLoop (fun _ => .oserr 2) (fun _ => 1) 1 0
            (0 + 1 + (if (2 : Int) = EBUSY then (1 : ℚ)/10 else 0)) 1 (.os 2)
    ∧ openAcquireLoop (fun _ => .oserr 2) (fun _ => 1) 1 0 2 7 (.os 5)
        = .raised (.os 5) 7
    ∧ (openAcquireLoop (fun _ => .oserr 2) (fun _ => 1) 1 1 0 0 .generic
          = .raised .generic 0
        ∨ ∃ k, 0 < k
            ∧ openAcquireLoop (fun _ => .oserr 2) (fun _ => 1) 1 1 0 0 .generic
              = .raised (.os ((fun _ => (2 : Int)) (k - 1))) k) := by
  refine ⟨by norm_num, ?_, ?_, ?_⟩
  · exact C5_open_retry_amended.1 (fun _ => .oserr 2) (fun _ => 1) 1 0 0 0
      .generic 2 (by norm_num) rfl
  · exact C5_open_retry_amended.2.1 (fun _ => .oserr 2) (fun _ => 1) 1 2 0 7
      (.os 5) (by norm_num)
  · exact C5_open_retry_amended.2.2 (fun _ => .oserr 2) (fun _ => 1)
      (fun _ => 2) 1 1 1 (fun _ => rfl) (fun _ => le_refl 1) (by norm_num)
      (by norm_num)

/-- When no teardown operation raises, the `finally` loop shuts down and
closes every remaining client, in order. -/
theorem closeAll_ok (tear : Nat → TearRes) :
    ∀ l : List Nat, (∀ c ∈ l, tear c = .ok) → closeAll tear l = l := by
  intro l
  induction l with
  | nil => intro _; rfl
  | cons c rest ih =>
    intro h
    have hc : tear c = .ok := h c (List.mem_cons_self c rest)
    rw [closeAll, hc]
    rw [ih (fun x hx => h x (List.mem_cons_of_mem c hx))]

/-- Counterexample to **C8** as stated: two clients are still active when
the loop exits; the first one's `shutdown` raises `OSError`, which the
`with suppress(OSError)` swallows by abandoning the whole teardown loop —
so NO client is shut down and closed (`closedLog = []`), even though the
active set is cleared and Serving is false.  Client 2 in particular was
in the active set at loop exit and was never shut down nor closed. -/
theorem C8_counterexample :
    (runLoop { freshOpen [10] [10] with serving := true }
        [.acceptEv 1, .acceptEv 2]).1.clients = [1, 2]
    ∧ (serve_forever (freshOpen [10] [10]) [.acceptEv 1, .acceptEv 2]
        (fun n => if n = 1 then .failShutdown else .ok)).1.clients = []
    ∧ (serve_forever (freshOpen [10] [10]) [.acceptEv 1, .acceptEv 2]
        (fun n => if n = 1 then .failShutdown else .ok)).1.serving = false
    ∧ (serve_forever (freshOpen [10] [10]) [.acceptEv 1, .acceptEv 2]
        (fun n => if n = 1 then .failShutdown else .ok)).1.closedLog = [] := by
  refine ⟨?_, ?_, ?_, ?_⟩ <;> decide

/-- **C8 (amended).** Whenever `serve_forever` exits its loop — normally
after `stop()`, or via an exception escaping the loop — the `finally`
block always clears the active client set and the Serving flag, and
shuts down and closes the remaining active clients in order *until the
first teardown `OSError`*, which silently abandons the rest of them; in
particular, when no teardown operation raises, every remaining active
socket is shut down and closed. -/
theorem C8_serve_cleanup (st : SrvState) (evs : List Ev)
    (tear : Nat → TearRes)
    (hok : ∀ c ∈ (runLoop { st with serving := true } evs).1.clients,
      tear c = .ok) :
    (serve_forever st evs tear).1.clients = []
    ∧ (serve_forever st evs tear).1.serving = false
    ∧ (serve_forever st evs tear).1.closedLog
        = (runLoop { st with serving := true } evs).1.closedLog
          ++ (runLoop { st with serving := true } evs).1.clients := by
  refine ⟨?_, ?_, ?_⟩ <;>
    simp [serve_forever, serve_finally, closeAll_ok tear _ hok]

/-- Witness for the amended C8: one client, all teardown operations
succeed. -/
theorem C8_serve_cleanup_witness :
    (serve_forever (freshOpen [10] [10]) [.acceptEv 1]
        (fun _ => .ok)).1.clients = []
    ∧ (serve_forever (freshOpen [10] [10]) [.acceptEv 1]
        (fun _ => .ok)).1.serving = false
    ∧ (serve_forever (freshOpen [10] [10]) [.acceptEv 1]
        (fun _ => .ok)).1.closedLog
      = (runLoop { freshOpen [10] [10] with serving := true }
            [.acceptEv 1]).1.closedLog
        ++ (runLoop { freshOpen [10] [10] with serving := true }
            [.acceptEv 1]).1.clients :=
  C8_serve_cleanup (freshOpen [10] [10]) [.acceptEv 1] (fun _ => .ok)
    (fun _ _ => rfl)

/-- Counterexample to **C9** as stated: on a Serving server with a
device handle, assigning `2` to the `timeout` property succeeds — no
error, the stored timeout becomes `2` and the device handle's effective
timeouts become `2` — because the setter checks no state flag. -/
theorem C9_counterexample :
    ({ freshOpen [10] [10] with serving := true } : SrvState).serving = true
    ∧ ({ freshOpen [10] [10] with serving := true } : SrvState).timeoutV = 1
    ∧ ({ freshOpen [10] [10] with
          serving := true } : SrvState).serialTimeout = some 1
    ∧ (set_timeout { freshOpen [10] [10] with serving := true } 2).2 = none
    ∧ (set_timeout { freshOpen [10] [10] with
          serving := true } 2).1.timeoutV = 2
    ∧ (set_timeout { freshOpen [10] [10] with
          serving := true } 2).1.serialTimeout = some 2
    ∧ (set_timeout { freshOpen [10] [10] with
          serving := true } 2).1.serving = true := by
  refine ⟨rfl, rfl, rfl, ?_, ?_, ?_, ?_⟩ <;>
    norm_num [set_timeout, freshOpen, initState]

/-- **C9 (amended).** The `timeout` setter enforces only non-negativity:
in *every* server state — Serving included — assigning a non-negative
value succeeds, stores the value, pushes it onto the device handle's
timeouts whenever a handle exists, and leaves the Serving flag as it
was; there is no state-based guard. -/
theorem C9_timeout_setter (st : SrvState) (v : ℚ) (h : ¬ v < 0) :
    (set_timeout st v).2 = none
    ∧ (set_timeout st v).1.timeoutV = v
    ∧ (set_timeout st v).1.serving = st.serving
    ∧ (st.serialPresent = true →
        (set_timeout st v).1.serialTimeout = some v
        ∧ (set_timeout st v).1.serialWTimeout = some v) := by
  by_cases hp : st.serialPresent = true <;>
    simp [set_timeout, h, hp]

/-- Witness for the amended C9 on a concrete Serving state. -/
theorem C9_timeout_setter_witness :
    (set_timeout { freshOpen [10] [10] with serving := true } 3).2 = none
    ∧ (set_timeout { freshOpen [10] [10] with
          serving := true } 3).1.timeoutV = 3
    ∧ (set_timeout { freshOpen [10] [10] with serving := true } 3).1.serving
      = ({ freshOpen [10] [10] with serving := true } : SrvState).serving
    ∧ (({ freshOpen [10] [10] with
          serving := true } : SrvState).serialPresent = true →
        (set_timeout { freshOpen [10] [10] with
            serving := true } 3).1.serialTimeout = some 3
        ∧ (set_timeout { freshOpen [10] [10] with
            serving := true } 3).1.serialWTimeout = some 3) :=
  C9_timeout_setter { freshOpen [10] [10] with serving := true } 3
    (by norm_num)

/-- **C10.** With a configured timeout of `0`, `open()` on a Closed
server makes no device-acquisition attempt at all (the grace-window loop
raises after `0` attempts) and always surfaces the fresh, message-less
placeholder `Exception()` — whatever the acquisition oracle would have
answered, even a device that is always available. -/
theorem C10_zero_timeout (st : SrvState) (att : Nat → AttemptRes)
    (dur : Nat → ℚ) (fuel : Nat)
    (hopen : st.isOpen = false) (ht : st.timeoutV = 0) :
    openAcquireLoop att dur st.timeoutV fuel 0 0 .generic
        = .raised .generic 0
    ∧ open_ st att dur fuel = some (resetForOpen st, some .generic) := by
  have hloop : openAcquireLoop att dur st.timeoutV fuel 0 0 .generic
      = .raised .generic 0 := by
    rw [ht]
    exact openAcquireLoop_stop att dur 0 0 fuel 0 .generic (by norm_num)
  refine ⟨hloop, ?_⟩
  simp [open_, hopen, hloop]

/-- Witness for C10: a closed server with timeout `0` and a device that
would succeed on every attempt. -/
theorem C10_zero_timeout_witness :
    openAcquireLoop (fun _ => .success) (fun _ => 1)
        ({ initState [10] [10] with timeoutV := 0 } : SrvState).timeoutV
        3 0 0 .generic = .raised .generic 0
    ∧ open_ { initState [10] [10] with timeoutV := 0 }
        (fun _ => .success) (fun _ => 1) 3
      = some (resetForOpen { initState [10] [10] with timeoutV := 0 },
          some .generic) :=
  C10_zero_timeout { initState [10] [10] with timeoutV := 0 }
    (fun _ => .success) (fun _ => 1) 3 rfl rfl
